import Mathlib

/-! # k8s-example: the GPU reporter and the scheduling-latency sampler

A shallow embedding of the two commands of the repository,
`cmd/gpunums/app.go` (get-running-gpus) and `cmd/schedtest/app.go`
(schedule-test), and the properties of their reporting loops.

Conventions of the embedding:

* Kubernetes API objects are structures holding the fields the commands read.
* `time.Time` is an integer count of nanoseconds, `time.Duration` a signed
  64-bit count of nanoseconds: `Time.Sub` saturates and `+=` wraps, as in Go.
* Library calls whose code is outside the repository sources are parameters:
  `PodRequests` (k8s.io/kubernetes/pkg/api/v1/resource), the pod listing of
  the client, and the condition lookup `GetPodCondition`.
* Standard output is the list of lines printed; the sampler log is the list
  of argument tuples handed to `klog.Infof`.
-/

set_option autoImplicit false

/-! ## Data model -/

/-- Instants of `time.Time` / `metav1.Time`, in nanoseconds. -/
abbrev Time := Int

/-- Values of `time.Duration`: signed 64-bit nanosecond counts. -/
abbrev Duration := Int

/-- Smallest `time.Duration`. -/
def minDuration : Duration := -(2 ^ 63)

/-- Largest `time.Duration`. -/
def maxDuration : Duration := 2 ^ 63 - 1

/-- Two's-complement wrap-around of a signed 64-bit result. -/
def wrapInt64 (x : Int) : Int := (x + 2 ^ 63) % 2 ^ 64 - 2 ^ 63

/-- The method `time.Time.Sub`: the difference `t - u`, saturated to the range of
`time.Duration`. -/
def Time.Sub (t u : Time) : Duration :=
  if t - u < minDuration then minDuration
  else if maxDuration < t - u then maxDuration
  else t - u

/-- Modelled from the spec: the library type `resource.Quantity`, "an opaque
numeric measure" of which "only its scalar value is read here". -/
structure Quantity where
  /-- the result of `Quantity.Value()` -/
  Value : Int
  deriving DecidableEq, Repr

/-- The zero `Quantity`, which a Go map lookup yields for an absent key. -/
def Quantity.zero : Quantity := ⟨0⟩

/-- A `corev1.ResourceList`: resource name to quantity. -/
abbrev ResourceList := List (String × Quantity)

/-- Go map indexing `reqs[name]`: the entry, or the zero value when absent. -/
def ResourceList.index (reqs : ResourceList) (name : String) : Quantity :=
  match reqs.lookup name with
  | some q => q
  | none => Quantity.zero

/-- The constant `corev1.PodSucceeded`. -/
def PodSucceeded : String := "Succeeded"

/-- The constant `corev1.PodFailed`. -/
def PodFailed : String := "Failed"

/-- The constant `corev1.PodScheduled`. -/
def PodScheduled : String := "PodScheduled"

/-- The constant `corev1.ConditionTrue`. -/
def ConditionTrue : String := "True"

/-- The fields of `corev1.PodCondition` that are read. -/
structure PodCondition where
  Type_ : String
  Status : String
  LastTransitionTime : Time
  deriving DecidableEq, Repr

/-- The fields of `corev1.PodStatus` that are read. -/
structure PodStatus where
  Phase : String
  PodIP : String
  Conditions : List PodCondition
  deriving DecidableEq, Repr

/-- The fields of `corev1.PodSpec` that are read. -/
structure PodSpec where
  NodeName : String
  deriving DecidableEq, Repr

/-- The fields of `corev1.Pod` that are read (object metadata inlined, as Go
embeds it). `DeletionTimestamp` is a pointer in Go: `none` is `nil`. -/
structure Pod where
  Name : String
  Namespace : String
  CreationTimestamp : Time
  DeletionTimestamp : Option Time
  Spec : PodSpec
  Status : PodStatus
  deriving DecidableEq, Repr

/-! ## cmd/gpunums -/

namespace gpunums

/-- The type `options`, restricted to the field the task reads. -/
structure options where
  namespace_ : List String
  deriving DecidableEq, Repr

/-- The type `task`, restricted to the field the task reads; the client is a
parameter of `Start`. -/
structure task where
  namespace_ : List String
  deriving DecidableEq, Repr

/-- The function `newTask`. -/
def newTask (opts : options) : task :=
  let t : task := { namespace_ := opts.namespace_ }
  if t.namespace_.length = 0 then { t with namespace_ := [""] } else t

/-- The argument tuple of the record `Printf` in `Start`. -/
structure Record where
  Name : String
  Namespace : String
  PodIP : String
  NodeName : String
  Phase : String
  gpunums : Int
  deriving DecidableEq, Repr

/-- The line printed by `fmt.Printf("%s,%s,%s,%s,%s,%d\n", ...)`. -/
def Record.line (r : Record) : String :=
  r.Name ++ "," ++ r.Namespace ++ "," ++ r.PodIP ++ "," ++ r.NodeName ++ "," ++ r.Phase
    ++ "," ++ toString r.gpunums ++ "\n"

/-- The header line printed first by `Start`. -/
def header : String :=
  "pod.Name" ++ "," ++ "pod.Namespace" ++ "," ++ "pod.Status.PodIP" ++ ","
    ++ "pod.Spec.NodeName" ++ "," ++ "pod.Status.Phase" ++ "," ++ "gpunums" ++ "\n"

/-- The arguments of the record `Printf` for one pod: lines 131 to 133. -/
def podRecord (PodRequests : Pod → ResourceList) (pod : Pod) : Record :=
  let reqs := PodRequests pod
  let gpu := reqs.index "nvidia.com/gpu"
  { Name := pod.Name, Namespace := pod.Namespace, PodIP := pod.Status.PodIP,
    NodeName := pod.Spec.NodeName, Phase := pod.Status.Phase, gpunums := gpu.Value }

/-- The inner loop of `Start` over `podList.Items`, appending to the lines
already on standard output. -/
def podLoop (PodRequests : Pod → ResourceList) : List Pod → List String → List String
  | [], stdout => stdout
  | pod :: rest, stdout =>
    if pod.Spec.NodeName ≠ "" ∧
        pod.Status.Phase ≠ PodSucceeded ∧
        pod.Status.Phase ≠ PodFailed ∧
        pod.DeletionTimestamp = none then
      podLoop PodRequests rest (stdout ++ [(podRecord PodRequests pod).line])
    else
      podLoop PodRequests rest stdout

/-- What a run of `Start` leaves behind: the lines on standard output and the
namespaces for which a listing request was issued, both oldest first. -/
structure Effects where
  stdout : List String
  listed : List String
  deriving DecidableEq, Repr

/-- The outer loop of `Start` over `t.namespace`. The client is the outcome of
`Pods(ns).List` per namespace: a pod list or an error text. The result is the
returned error, `none` for `nil`. -/
def nsLoop (PodRequests : Pod → ResourceList) (client : String → Except String (List Pod)) :
    List String → Effects → Effects × Option String
  | [], w => (w, none)
  | ns :: rest, w =>
    match client ns with
    | .error err =>
      ({ w with listed := w.listed ++ [ns] }, some ("failed to list pods: " ++ err))
    | .ok podList =>
      nsLoop PodRequests client rest
        { stdout := podLoop PodRequests podList w.stdout, listed := w.listed ++ [ns] }

/-- The method `task.Start`: the header, then the loop over the namespaces.
The `klog` messages, which go to the log and not to standard output, are
left out. -/
def Start (PodRequests : Pod → ResourceList) (client : String → Except String (List Pod))
    (t : task) : Effects × Option String :=
  nsLoop PodRequests client t.namespace_ { stdout := [header], listed := [] }

/-- The loop `for _, arg := range args` of the `Args` validator, over the
arguments still to be visited; `args` is the whole list, for the error. -/
def argsLoop (commandPath : String) (args : List String) :
    List String → Except (String × List String) Unit
  | [] => .ok ()
  | arg :: rest =>
    if arg.length > 0 then .error (commandPath, args) else argsLoop commandPath args rest

/-- The `Args` validator of the command. The error carries the two arguments
of its `fmt.Errorf`: the command path and the argument list. -/
def Args (commandPath : String) (args : List String) : Except (String × List String) Unit :=
  argsLoop commandPath args args

/-- Specification side: the pods the reporter must report, in the words of the
contract: node assigned, phase neither Succeeded nor Failed, not marked
deleted. -/
def eligible (pod : Pod) : Bool :=
  pod.Spec.NodeName != "" && pod.Status.Phase != "Succeeded" && pod.Status.Phase != "Failed"
    && pod.DeletionTimestamp.isNone

/-- Specification side: the accelerator count of a pod, in the words of the
contract: the scalar value of its resource-request entry named
"nvidia.com/gpu", or 0 if the request map has no such entry. -/
def gpuRequest (PodRequests : Pod → ResourceList) (pod : Pod) : Int :=
  match (PodRequests pod).lookup "nvidia.com/gpu" with
  | some q => q.Value
  | none => 0

/-- Specification side: whether the listing of a namespace succeeds. -/
def listingOk (client : String → Except String (List Pod)) (ns : String) : Bool :=
  match client ns with
  | .ok _ => true
  | .error _ => false

/-- Specification side: the record lines one namespace contributes, those of
the eligible pods of its listing in listing order (none if the listing
fails). -/
def recordsOf (PodRequests : Pod → ResourceList) (client : String → Except String (List Pod))
    (ns : String) : List String :=
  match client ns with
  | .ok podList => (podList.filter eligible).map fun pod => (podRecord PodRequests pod).line
  | .error _ => []

/-- Specification side: the error `Start` surfaces for a namespace whose
listing fails. -/
def failureOf (client : String → Except String (List Pod)) (ns : String) : Option String :=
  match client ns with
  | .ok _ => none
  | .error err => some ("failed to list pods: " ++ err)

end gpunums

/-! ## pkg/util -/

namespace util

/-- Modelled from the spec: the helper `GetPodCondition` of `pkg/util`, the
"condition lookup" over a pod's "list of timestamped condition records", whose
code is not among the sources. It yields the first record of the given
condition type, `none` standing for the nil pointer. The sampler below takes
the lookup as a parameter; this definition serves to evaluate it on concrete
snapshots. -/
def GetPodCondition (status : PodStatus) (conditionType : String) : Option PodCondition :=
  status.Conditions.find? fun c => c.Type_ == conditionType

end util

/-! ## cmd/schedtest -/

namespace schedtest

/-- The loop variables of one tick of `Start`: `scheduled`, `avg` and `m`. A Go
slice has fewer than 2^63 elements, so the counter `scheduled`, bounded by
`len(pods)`, cannot wrap; the duration sum `avg` can. -/
structure Vars where
  scheduled : Int
  avg : Duration
  m : Duration
  deriving DecidableEq, Repr

/-- The body of `for _, pod := range pods`: lines 145 to 153. -/
def podStep (GetPodCondition : PodStatus → String → Option PodCondition) (v : Vars)
    (pod : Pod) : Vars :=
  match GetPodCondition pod.Status PodScheduled with
  | some cond =>
    if cond.Status = ConditionTrue then
      let scheduleTime := Time.Sub cond.LastTransitionTime pod.CreationTimestamp
      { scheduled := v.scheduled + 1
        avg := wrapInt64 (v.avg + scheduleTime)
        m := if scheduleTime > v.m then scheduleTime else v.m }
    else v
  | none => v

/-- The loop `for _, pod := range pods`. -/
def podLoop (GetPodCondition : PodStatus → String → Option PodCondition) :
    List Pod → Vars → Vars
  | [], v => v
  | pod :: rest, v => podLoop GetPodCondition rest (podStep GetPodCondition v pod)

/-- Go integer division of durations, `a / b`: a run-time panic on a zero
divisor, otherwise the quotient truncated toward zero (wrapped to 64 bits). -/
def quo (a b : Duration) : Except String Duration :=
  if b = 0 then .error "runtime error: integer divide by zero"
  else .ok (wrapInt64 (Int.tdiv a b))

/-- The arguments of the `klog.Infof` summary line of one tick. -/
structure Summary where
  All : Int
  Scheduled : Int
  Unscheduled : Int
  Max : Duration
  Avg : Duration
  deriving DecidableEq, Repr

/-- The aggregation of one tick over the listed pods: lines 138 to 160. The
result is the summary logged, or the text of a run-time panic. -/
def aggregate (GetPodCondition : PodStatus → String → Option PodCondition)
    (pods : List Pod) : Except String Summary :=
  let v := podLoop GetPodCondition pods { scheduled := 0, avg := 0, m := 0 }
  let len : Int := pods.length
  match (if len > 0 then quo v.avg len else .ok v.avg) with
  | .error panic => .error panic
  | .ok avg =>
    .ok { All := len, Scheduled := v.scheduled, Unscheduled := len - v.scheduled,
          Max := v.m, Avg := avg }

/-- The two events the `select` of `Start` waits on: the ticker firing, with
the outcome the lister then gives, and the stop channel being closed. -/
inductive Event where
  | tick (listing : Except String (List Pod))
  | cancel
  deriving Repr

/-- Where control is after an iteration of `for { select { ... } }`. -/
inductive Control where
  /-- back at the top of the `for`, waiting in the `select` -/
  | running
  /-- `Start` has returned the error -/
  | returned (err : String)
  /-- a run-time panic has unwound the call -/
  | panicked (panic : String)
  deriving DecidableEq, Repr

/-- One iteration of the loop of `Start`, for the event the `select` handles:
the control state reached and the summary lines logged. In the stop case the
`break` leaves the `select` statement, which ends the body of the `for`. -/
def iteration (GetPodCondition : PodStatus → String → Option PodCondition) :
    Event → Control × List Summary
  | .tick (.error err) => (.returned ("failed to list pods: " ++ err), [])
  | .tick (.ok pods) =>
    match aggregate GetPodCondition pods with
    | .ok summary => (.running, [summary])
    | .error panic => (.panicked panic, [])
  | .cancel => (.running, [])

/-- The step relation of the loop, as a function: an iteration when running,
nothing once `Start` has been left. -/
def step (GetPodCondition : PodStatus → String → Option PodCondition) :
    Control → Event → Control × List Summary
  | .running, ev => iteration GetPodCondition ev
  | c, _ => (c, [])

/-- The `for` loop of `Start` from a control state, over the sequence of
events handled: the final control state and the whole log. -/
def loop (GetPodCondition : PodStatus → String → Option PodCondition) :
    Control → List Event → Control × List Summary
  | c, [] => (c, [])
  | c, ev :: rest =>
    let r := step GetPodCondition c ev
    let r2 := loop GetPodCondition r.1 rest
    (r2.1, r.2 ++ r2.2)

/-- The method `task.Start`, once the informer cache has synced: the loop is
entered running. The result `running` says that `Start` has not returned
after the events given. The `klog` start and stop messages are left out. -/
def Start (GetPodCondition : PodStatus → String → Option PodCondition)
    (events : List Event) : Control × List Summary :=
  loop GetPodCondition .running events

/-- The `Args` validator of the command: the same loop as in `gpunums`. -/
def argsLoop (commandPath : String) (args : List String) :
    List String → Except (String × List String) Unit
  | [] => .ok ()
  | arg :: rest =>
    if arg.length > 0 then .error (commandPath, args) else argsLoop commandPath args rest

/-- The `Args` validator of the command. The error carries the two arguments
of its `fmt.Errorf`: the command path and the argument list. -/
def Args (commandPath : String) (args : List String) : Except (String × List String) Unit :=
  argsLoop commandPath args args

/-- Specification side: the scheduled pods, those whose PodScheduled condition
has status True. -/
def isScheduled (GetPodCondition : PodStatus → String → Option PodCondition) (pod : Pod) :
    Bool :=
  match GetPodCondition pod.Status "PodScheduled" with
  | some cond => cond.Status == "True"
  | none => false

/-- Specification side: the scheduling duration of a pod, defined for the
scheduled pods, those whose PodScheduled condition has status True: the
last-transition time of that condition minus the creation time. -/
def scheduleTime (GetPodCondition : PodStatus → String → Option PodCondition) (pod : Pod) :
    Option Duration :=
  match GetPodCondition pod.Status "PodScheduled" with
  | some cond =>
    if cond.Status = "True" then some (Time.Sub cond.LastTransitionTime pod.CreationTimestamp)
    else none
  | none => none

/-- Specification side: the durations of the scheduled pods of a snapshot, in
snapshot order. -/
def scheduleTimes (GetPodCondition : PodStatus → String → Option PodCondition)
    (pods : List Pod) : List Duration :=
  pods.filterMap (scheduleTime GetPodCondition)

end schedtest

/-! ## Example inputs -/

namespace gpunums

/-- An example pod without a node. -/
def podNoNode : Pod :=
  { Name := "a", Namespace := "default", CreationTimestamp := 0, DeletionTimestamp := none,
    Spec := { NodeName := "" },
    Status := { Phase := "Pending", PodIP := "", Conditions := [] } }

/-- An example pod that has run to completion. -/
def podSucceeded : Pod :=
  { Name := "b", Namespace := "default", CreationTimestamp := 0, DeletionTimestamp := none,
    Spec := { NodeName := "node-1" },
    Status := { Phase := "Succeeded", PodIP := "10.0.0.2", Conditions := [] } }

/-- An example pod that is running on a node. -/
def podRunning : Pod :=
  { Name := "c", Namespace := "default", CreationTimestamp := 0, DeletionTimestamp := none,
    Spec := { NodeName := "node-1" },
    Status := { Phase := "Running", PodIP := "10.0.0.3", Conditions := [] } }

/-- Example requests: pod "c" asks for two GPUs, the others for nothing. -/
def exampleRequests (pod : Pod) : ResourceList :=
  if pod.Name = "c" then [("cpu", ⟨4⟩), ("nvidia.com/gpu", ⟨2⟩)] else [("cpu", ⟨1⟩)]

/-- An example client: namespace "broken" cannot be listed, "default" holds
the three example pods, every other namespace is empty. -/
def exampleClient (ns : String) : Except String (List Pod) :=
  if ns = "broken" then .error "forbidden"
  else if ns = "default" then .ok [podNoNode, podSucceeded, podRunning]
  else .ok []

end gpunums

namespace schedtest

/-- An example pod created at second 100 and marked scheduled at second 110. -/
def podBound : Pod :=
  { Name := "bound", Namespace := "default", CreationTimestamp := 100000000000,
    DeletionTimestamp := none, Spec := { NodeName := "node-1" },
    Status := { Phase := "Running", PodIP := "10.0.0.4",
                Conditions := [{ Type_ := "Initialized", Status := "True",
                                 LastTransitionTime := 112000000000 },
                               { Type_ := "PodScheduled", Status := "True",
                                 LastTransitionTime := 110000000000 }] } }

/-- An example pod created at second 100 that could not be scheduled. -/
def podPending : Pod :=
  { Name := "pending", Namespace := "default", CreationTimestamp := 100000000000,
    DeletionTimestamp := none, Spec := { NodeName := "" },
    Status := { Phase := "Pending", PodIP := "",
                Conditions := [{ Type_ := "PodScheduled", Status := "False",
                                 LastTransitionTime := 101000000000 }] } }

end schedtest

/-! ## Properties of the reporter -/

namespace gpunums

/-- The filter of `Start` is the eligibility of the contract. -/
theorem eligible_iff (pod : Pod) :
    eligible pod = true ↔
      (pod.Spec.NodeName ≠ "" ∧ pod.Status.Phase ≠ PodSucceeded ∧
        pod.Status.Phase ≠ PodFailed ∧ pod.DeletionTimestamp = none) := by
  simp [eligible, PodSucceeded, PodFailed, Option.isNone_iff_eq_none, and_assoc]

/-- The inner loop appends the record lines of the eligible pods, in order. -/
theorem podLoop_eq_filter (PodRequests : Pod → ResourceList) (pods : List Pod)
    (stdout : List String) :
    podLoop PodRequests pods stdout =
      stdout ++ (pods.filter eligible).map fun pod => (podRecord PodRequests pod).line := by
  induction pods generalizing stdout with
  | nil => simp [podLoop]
  | cons pod rest ih =>
    by_cases h : eligible pod = true
    · have hc := (eligible_iff pod).mp h
      simp [podLoop, hc, h, ih]
    · have hc := mt (eligible_iff pod).mpr h
      simp [podLoop, hc, h, ih]

/-- The count printed for a pod is the count of the contract. -/
theorem podRecord_gpunums (PodRequests : Pod → ResourceList) (pod : Pod) :
    (podRecord PodRequests pod).gpunums = gpuRequest PodRequests pod := by
  simp only [podRecord, gpuRequest, ResourceList.index]
  cases h : (PodRequests pod).lookup "nvidia.com/gpu" <;> simp [Quantity.zero]

/-- The outer loop, in closed form: the namespaces up to the first whose
listing fails contribute their records, that one is still listed, and its
failure is the result. -/
theorem nsLoop_eq (PodRequests : Pod → ResourceList)
    (client : String → Except String (List Pod)) (nss : List String) (w : Effects) :
    nsLoop PodRequests client nss w =
      ({ stdout := w.stdout ++
            ((nss.takeWhile (listingOk client)).map (recordsOf PodRequests client)).flatten,
         listed := w.listed ++ nss.takeWhile (listingOk client) ++
            ((nss.dropWhile (listingOk client)).head?).toList },
       ((nss.dropWhile (listingOk client)).head?).bind (failureOf client)) := by
  induction nss generalizing w with
  | nil => simp [nsLoop]
  | cons ns rest ih =>
    cases h : client ns with
    | error err => simp [nsLoop, h, listingOk, failureOf]
    | ok podList =>
      simp [nsLoop, h, listingOk, recordsOf, ih, podLoop_eq_filter, List.append_assoc]

end gpunums

/-- In Go terms: `len(arg) > 0` holds exactly for the non-empty strings. -/
theorem length_pos_iff_ne_empty (s : String) : s.length > 0 ↔ s ≠ "" := by
  cases s with
  | mk data =>
    cases data with
    | nil => simp [String.length]
    | cons c cs =>
      simp only [String.length, List.length_cons, gt_iff_lt, Nat.succ_pos, true_iff]
      intro h
      have hd := congrArg String.data h
      simp at hd

namespace gpunums

/-- The validator loop fails exactly when an argument still to be visited is
a non-empty string. -/
theorem argsLoop_eq (commandPath : String) (args rest : List String) :
    argsLoop commandPath args rest =
      if ∃ arg ∈ rest, arg ≠ "" then .error (commandPath, args) else .ok () := by
  induction rest with
  | nil => simp [argsLoop]
  | cons arg rest ih =>
    by_cases h : arg = ""
    · subst h; simp [argsLoop, ih]
    · have := (length_pos_iff_ne_empty arg).mpr h
      simp [argsLoop, h, this]

/-- When every listing succeeds the outer loop returns nil, having listed
every namespace and printed all their records. -/
theorem nsLoop_all_ok (PodRequests : Pod → ResourceList)
    (client : String → Except String (List Pod)) (nss : List String) (w : Effects)
    (hok : ∀ n ∈ nss, listingOk client n = true) :
    nsLoop PodRequests client nss w =
      ({ stdout := w.stdout ++ (nss.map (recordsOf PodRequests client)).flatten,
         listed := w.listed ++ nss }, none) := by
  induction nss generalizing w with
  | nil => simp [nsLoop]
  | cons ns rest ih =>
    have hns := hok ns (List.mem_cons_self _ _)
    have hrest : ∀ n ∈ rest, listingOk client n = true :=
      fun n hn => hok n (List.mem_cons_of_mem _ hn)
    cases h : client ns with
    | error err => simp [listingOk, h] at hns
    | ok podList =>
      simp [nsLoop, h, recordsOf, ih _ hrest, podLoop_eq_filter, List.append_assoc]

/-- When a listing fails after a run of successful ones, the outer loop stops
there: the records of the successful run stay, the failure is returned. -/
theorem nsLoop_first_failure (PodRequests : Pod → ResourceList)
    (client : String → Except String (List Pod)) (pre : List String) (ns : String)
    (post : List String) (err : String) (w : Effects)
    (hpre : ∀ n ∈ pre, listingOk client n = true) (hns : client ns = .error err) :
    nsLoop PodRequests client (pre ++ ns :: post) w =
      ({ stdout := w.stdout ++ (pre.map (recordsOf PodRequests client)).flatten,
         listed := w.listed ++ pre ++ [ns] }, some ("failed to list pods: " ++ err)) := by
  induction pre generalizing w with
  | nil => simp [nsLoop, hns]
  | cons n rest ih =>
    have hn := hpre n (List.mem_cons_self _ _)
    have hrest : ∀ k ∈ rest, listingOk client k = true :=
      fun k hk => hpre k (List.mem_cons_of_mem _ hk)
    cases h : client n with
    | error e => simp [listingOk, h] at hn
    | ok podList =>
      simp [nsLoop, h, recordsOf, ih _ hrest, podLoop_eq_filter, List.append_assoc]

/-- The outer loop returns an error exactly when some listing fails. -/
theorem nsLoop_error_iff (PodRequests : Pod → ResourceList)
    (client : String → Except String (List Pod)) (nss : List String) (w : Effects) :
    (∃ err, (nsLoop PodRequests client nss w).2 = some err) ↔
      ∃ ns ∈ nss, listingOk client ns = false := by
  induction nss generalizing w with
  | nil => simp [nsLoop]
  | cons ns rest ih =>
    cases h : client ns with
    | error err => simp [nsLoop, h, listingOk]
    | ok podList => simp [nsLoop, h, listingOk, ih]

end gpunums

namespace gpunums

/-- C1: for every pod list returned by a listing, the lines `Start` prints for
it are exactly the records of the pods with a non-empty node name, a phase
that is neither Succeeded nor Failed and no deletion timestamp, one per such
pod and in listing order; a pod failing one of the conditions prints nothing.
In the scenario of three pods, one without node, one Succeeded and one
eligible requesting 2 GPUs, exactly one line is printed, with count 2. -/
theorem reporter_prints_exactly_the_eligible_pods (PodRequests : Pod → ResourceList) :
    (∀ (pods : List Pod) (stdout : List String),
      podLoop PodRequests pods stdout =
        stdout ++ (pods.filter eligible).map fun pod => (podRecord PodRequests pod).line) ∧
    (∀ (client : String → Except String (List Pod)) (ns : String) (pods : List Pod),
      client ns = .ok pods →
        (Start PodRequests client { namespace_ := [ns] }).1.stdout =
          header :: (pods.filter eligible).map fun pod => (podRecord PodRequests pod).line) ∧
    (∀ (pod : Pod) (stdout : List String),
      (pod.Spec.NodeName = "" ∨ pod.Status.Phase = "Succeeded" ∨ pod.Status.Phase = "Failed" ∨
          pod.DeletionTimestamp ≠ none) →
        podLoop PodRequests [pod] stdout = stdout) ∧
    (∀ p1 p2 p3 : Pod,
      p1.Spec.NodeName = "" → p2.Status.Phase = "Succeeded" → eligible p3 = true →
        gpuRequest PodRequests p3 = 2 →
          podLoop PodRequests [p1, p2, p3] [] =
            [Record.line { Name := p3.Name, Namespace := p3.Namespace, PodIP := p3.Status.PodIP,
                           NodeName := p3.Spec.NodeName, Phase := p3.Status.Phase,
                           gpunums := 2 }]) := by
  refine ⟨podLoop_eq_filter PodRequests, ?_, ?_, ?_⟩
  · intro client ns pods h
    have hok : ∀ n ∈ [ns], listingOk client n = true := by
      intro n hn
      simp only [List.mem_singleton] at hn
      simp [listingOk, hn, h]
    simp [Start, nsLoop_all_ok PodRequests client [ns] _ hok, recordsOf, h]
  · intro pod stdout hfail
    have hne : eligible pod = false := by
      rcases hfail with h | h | h | h
      · simp [eligible, h]
      · simp [eligible, h]
      · simp [eligible, h]
      · cases hd : pod.DeletionTimestamp with
        | none => exact absurd hd h
        | some ts => simp [eligible, hd]
    simp [podLoop_eq_filter, hne]
  · intro p1 p2 p3 h1 h2 h3 hgpu
    have e1 : eligible p1 = false := by simp [eligible, h1]
    have e2 : eligible p2 = false := by simp [eligible, h2]
    have hrec := podRecord_gpunums PodRequests p3
    rw [hgpu] at hrec
    simp only [podLoop_eq_filter, List.nil_append]
    simp [List.filter, e1, e2, h3, podRecord, ← hrec]

/-- The scenario of C1 on the three example pods: one line, with count 2. -/
theorem reporter_prints_exactly_the_eligible_pods_witness :
    podNoNode.Spec.NodeName = "" ∧ podSucceeded.Status.Phase = "Succeeded" ∧
      eligible podRunning = true ∧ gpuRequest exampleRequests podRunning = 2 ∧
      podLoop exampleRequests [podNoNode, podSucceeded, podRunning] [] =
        ["c,default,10.0.0.3,node-1,Running,2\n"] ∧
      (Start exampleRequests exampleClient { namespace_ := ["default"] }).1.stdout =
        [header, "c,default,10.0.0.3,node-1,Running,2\n"] ∧
      podLoop exampleRequests [podSucceeded] [header] = [header] :=
  ⟨rfl, rfl, by decide, by decide,
    (reporter_prints_exactly_the_eligible_pods exampleRequests).2.2.2
      podNoNode podSucceeded podRunning rfl rfl (by decide) (by decide),
    (reporter_prints_exactly_the_eligible_pods exampleRequests).2.1
      exampleClient "default" [podNoNode, podSucceeded, podRunning] rfl,
    (reporter_prints_exactly_the_eligible_pods exampleRequests).2.2.1
      podSucceeded [header] (Or.inr (Or.inl rfl))⟩

/-- C2: every record `Start` prints ends in the scalar value of the pod's
resource-request entry named "nvidia.com/gpu", and in 0 when the request map
of the pod has no such entry. -/
theorem reporter_count_is_the_gpu_request (PodRequests : Pod → ResourceList) (pod : Pod) :
    (∀ q : Quantity, (PodRequests pod).lookup "nvidia.com/gpu" = some q →
      (podRecord PodRequests pod).gpunums = q.Value) ∧
    ((PodRequests pod).lookup "nvidia.com/gpu" = none →
      (podRecord PodRequests pod).gpunums = 0) ∧
    (∀ (pods : List Pod) (stdout : List String),
      podLoop PodRequests pods stdout =
        stdout ++ (pods.filter eligible).map fun p =>
          p.Name ++ "," ++ p.Namespace ++ "," ++ p.Status.PodIP ++ "," ++ p.Spec.NodeName
            ++ "," ++ p.Status.Phase ++ "," ++ toString (gpuRequest PodRequests p) ++ "\n") := by
  refine ⟨?_, ?_, ?_⟩
  · intro q hq
    simp [podRecord_gpunums, gpuRequest, hq]
  · intro hq
    simp [podRecord_gpunums, gpuRequest, hq]
  · intro pods stdout
    rw [podLoop_eq_filter]
    congr 1
    apply List.map_congr_left
    intro p _
    simp only [Record.line, podRecord_gpunums]
    rfl

/-- C2 on the example pods: pod "c" has the entry, with value 2, and pod "b"
has none, so its count is 0. -/
theorem reporter_count_is_the_gpu_request_witness :
    (exampleRequests podRunning).lookup "nvidia.com/gpu" = some ⟨2⟩ ∧
      (podRecord exampleRequests podRunning).gpunums = 2 ∧
      (exampleRequests podSucceeded).lookup "nvidia.com/gpu" = none ∧
      (podRecord exampleRequests podSucceeded).gpunums = 0 :=
  ⟨by decide,
    (reporter_count_is_the_gpu_request exampleRequests podRunning).1 ⟨2⟩ (by decide),
    by decide,
    (reporter_count_is_the_gpu_request exampleRequests podSucceeded).2.1 (by decide)⟩

end gpunums

namespace gpunums

/-- C6: `Start` returns an error iff the listing of some namespace fails. When
the first failing namespace comes after the namespaces `pre`, the output is
the header followed by the records of exactly the namespaces of `pre`, the
listings issued are those of `pre` and of the failing namespace and of no
later one, and the error of that listing is returned. When no listing fails,
every namespace is listed and reported and nil is returned. -/
theorem reporter_aborts_at_the_first_failing_listing (PodRequests : Pod → ResourceList)
    (client : String → Except String (List Pod)) (t : task) :
    ((∃ err, (Start PodRequests client t).2 = some err) ↔
      ∃ ns ∈ t.namespace_, listingOk client ns = false) ∧
    (∀ (pre : List String) (ns : String) (post : List String) (err : String),
      t.namespace_ = pre ++ ns :: post → (∀ n ∈ pre, listingOk client n = true) →
        client ns = .error err →
          Start PodRequests client t =
            ({ stdout := header :: (pre.map (recordsOf PodRequests client)).flatten,
               listed := pre ++ [ns] }, some ("failed to list pods: " ++ err))) ∧
    ((∀ n ∈ t.namespace_, listingOk client n = true) →
      Start PodRequests client t =
        ({ stdout := header :: (t.namespace_.map (recordsOf PodRequests client)).flatten,
           listed := t.namespace_ }, none)) := by
  refine ⟨nsLoop_error_iff PodRequests client t.namespace_ _, ?_, ?_⟩
  · intro pre ns post err hsplit hpre hns
    simp [Start, hsplit, nsLoop_first_failure PodRequests client pre ns post err _ hpre hns]
  · intro hok
    simp [Start, nsLoop_all_ok PodRequests client t.namespace_ _ hok]

/-- C6 on the example client, for the namespaces default, broken, default: the
run fails, the records of the first namespace are kept, and the third
namespace is neither listed nor reported. -/
theorem reporter_aborts_at_the_first_failing_listing_witness :
    Start exampleRequests exampleClient { namespace_ := ["default", "broken", "default"] } =
        ({ stdout := [header, "c,default,10.0.0.3,node-1,Running,2\n"],
           listed := ["default", "broken"] }, some "failed to list pods: forbidden") ∧
      Start exampleRequests exampleClient { namespace_ := ["default", "other"] } =
        ({ stdout := [header, "c,default,10.0.0.3,node-1,Running,2\n"],
           listed := ["default", "other"] }, none) :=
  ⟨(reporter_aborts_at_the_first_failing_listing exampleRequests exampleClient
      { namespace_ := ["default", "broken", "default"] }).2.1
      ["default"] "broken" ["default"] "forbidden" rfl (by decide) rfl,
    (reporter_aborts_at_the_first_failing_listing exampleRequests exampleClient
      { namespace_ := ["default", "other"] }).2.2 (by decide)⟩

/-- C9 (counterexample): for the configured list broken, default the task's
list is that list unchanged, yet the run issues a single listing, for broken,
whose failure ends it: the entry default gets no listing. -/
theorem newTask_listing_stops_at_a_failing_namespace :
    (newTask { namespace_ := ["broken", "default"] }).namespace_ = ["broken", "default"] ∧
      (Start exampleRequests exampleClient
          (newTask { namespace_ := ["broken", "default"] })).1.listed = ["broken"] ∧
      (Start exampleRequests exampleClient
          (newTask { namespace_ := ["broken", "default"] })).1.listed ≠
        (newTask { namespace_ := ["broken", "default"] }).namespace_ :=
  ⟨rfl, rfl, by decide⟩

/-- C9 (amended): with an empty configured namespace list the task's list is
the single selector "", and the run issues exactly one listing, for ""; a
non-empty configured list is taken over unchanged; the run issues one listing
per entry of the task's list, in order, for all entries when every listing
succeeds and otherwise for the entries up to and including the first one
whose listing fails, and for none after it. -/
theorem newTask_defaults_to_the_all_namespaces_selector (PodRequests : Pod → ResourceList)
    (client : String → Except String (List Pod)) :
    (newTask { namespace_ := [] }).namespace_ = [""] ∧
    (Start PodRequests client (newTask { namespace_ := [] })).1.listed = [""] ∧
    (∀ (ns : String) (rest : List String),
      (newTask { namespace_ := ns :: rest }).namespace_ = ns :: rest) ∧
    (∀ opts : options, (∀ n ∈ (newTask opts).namespace_, listingOk client n = true) →
      (Start PodRequests client (newTask opts)).1.listed = (newTask opts).namespace_) ∧
    (∀ (opts : options) (pre : List String) (ns : String) (post : List String),
      (newTask opts).namespace_ = pre ++ ns :: post →
        (∀ n ∈ pre, listingOk client n = true) → listingOk client ns = false →
          (Start PodRequests client (newTask opts)).1.listed = pre ++ [ns]) := by
  refine ⟨rfl, ?_, fun _ _ => rfl, ?_, ?_⟩
  · cases h : client "" with
    | error err => simp [Start, newTask, nsLoop, h]
    | ok podList => simp [Start, newTask, nsLoop, h]
  · intro opts hok
    simp [Start, nsLoop_all_ok PodRequests client _ _ hok]
  · intro opts pre ns post hsplit hpre hns
    cases h : client ns with
    | ok podList => simp [listingOk, h] at hns
    | error err =>
      simp [Start, hsplit, nsLoop_first_failure PodRequests client pre ns post err _ hpre h]

/-- C9 (amended) on the example client: the list a, b is taken over and listed
in order, and of the list default, broken, other the first two entries are
listed and the third is not. -/
theorem newTask_defaults_to_the_all_namespaces_selector_witness :
    (newTask { namespace_ := ["a", "b"] }).namespace_ = ["a", "b"] ∧
      (Start exampleRequests exampleClient (newTask { namespace_ := ["a", "b"] })).1.listed =
        ["a", "b"] ∧
      (Start exampleRequests exampleClient
          (newTask { namespace_ := ["default", "broken", "other"] })).1.listed =
        ["default", "broken"] :=
  ⟨rfl,
    (newTask_defaults_to_the_all_namespaces_selector exampleRequests exampleClient).2.2.2.1
      { namespace_ := ["a", "b"] } (by decide),
    (newTask_defaults_to_the_all_namespaces_selector exampleRequests exampleClient).2.2.2.2
      { namespace_ := ["default", "broken", "other"] } ["default"] "broken" ["other"]
      rfl (by decide) (by decide)⟩

end gpunums

/-! ## Properties of the sampler -/

namespace schedtest

/-- Wrapping is the identity on the 64-bit range. -/
theorem wrapInt64_of_inRange (x : Int) (hlo : -(2 ^ 63) ≤ x) (hhi : x < 2 ^ 63) :
    wrapInt64 x = x := by
  unfold wrapInt64; omega

/-- Wrapping an intermediate sum does not change the wrapped total. -/
theorem wrapInt64_add_wrapInt64 (a b : Int) :
    wrapInt64 (wrapInt64 a + b) = wrapInt64 (a + b) := by
  unfold wrapInt64; omega

/-- The scheduled pods are those with a scheduling duration. -/
theorem isSome_scheduleTime (GetPodCondition : PodStatus → String → Option PodCondition)
    (pod : Pod) :
    (scheduleTime GetPodCondition pod).isSome = isScheduled GetPodCondition pod := by
  unfold scheduleTime isScheduled
  cases GetPodCondition pod.Status "PodScheduled" with
  | none => rfl
  | some cond => by_cases h : cond.Status = "True" <;> simp [h]

/-- The loop body updates the variables for a scheduled pod, with its
scheduling duration, and leaves them alone for any other pod. -/
theorem podStep_eq (GetPodCondition : PodStatus → String → Option PodCondition) (v : Vars)
    (pod : Pod) :
    podStep GetPodCondition v pod =
      match scheduleTime GetPodCondition pod with
      | some d =>
        { scheduled := v.scheduled + 1, avg := wrapInt64 (v.avg + d),
          m := if d > v.m then d else v.m }
      | none => v := by
  unfold podStep scheduleTime PodScheduled ConditionTrue
  cases GetPodCondition pod.Status "PodScheduled" with
  | none => rfl
  | some cond => by_cases h : cond.Status = "True" <;> simp [h]

/-- The counter after the loop: one more per scheduled pod. -/
theorem podLoop_scheduled (GetPodCondition : PodStatus → String → Option PodCondition)
    (pods : List Pod) (v : Vars) :
    (podLoop GetPodCondition pods v).scheduled =
      v.scheduled + (scheduleTimes GetPodCondition pods).length := by
  induction pods generalizing v with
  | nil => simp [podLoop, scheduleTimes]
  | cons pod rest ih =>
    simp only [podLoop, ih, podStep_eq, scheduleTimes]
    cases h : scheduleTime GetPodCondition pod with
    | none => simp [List.filterMap_cons, h]
    | some d => simp [List.filterMap_cons, h]; omega

/-- The sum after the loop: the wrapped total of the scheduling durations. -/
theorem podLoop_avg (GetPodCondition : PodStatus → String → Option PodCondition)
    (pods : List Pod) (v : Vars) (hv : wrapInt64 v.avg = v.avg) :
    (podLoop GetPodCondition pods v).avg =
      wrapInt64 (v.avg + (scheduleTimes GetPodCondition pods).sum) := by
  induction pods generalizing v with
  | nil => simp [podLoop, scheduleTimes, hv]
  | cons pod rest ih =>
    simp only [podLoop, podStep_eq, scheduleTimes]
    cases h : scheduleTime GetPodCondition pod with
    | none =>
      simp only [List.filterMap_cons, h]
      exact ih v hv
    | some d =>
      simp only [List.filterMap_cons, h, List.sum_cons]
      rw [ih _ (by
        show wrapInt64 (wrapInt64 (v.avg + d)) = wrapInt64 (v.avg + d)
        unfold wrapInt64; omega)]
      show wrapInt64 (wrapInt64 (v.avg + d) + _) = _
      rw [wrapInt64_add_wrapInt64, Int.add_assoc]
      rfl

/-- The maximum after the loop dominates its initial value and every
scheduling duration. -/
theorem podLoop_m_ge (GetPodCondition : PodStatus → String → Option PodCondition)
    (pods : List Pod) (v : Vars) :
    v.m ≤ (podLoop GetPodCondition pods v).m ∧
      ∀ d ∈ scheduleTimes GetPodCondition pods, d ≤ (podLoop GetPodCondition pods v).m := by
  induction pods generalizing v with
  | nil => simp [podLoop, scheduleTimes]
  | cons pod rest ih =>
    simp only [podLoop, podStep_eq, scheduleTimes]
    cases h : scheduleTime GetPodCondition pod with
    | none =>
      simp only [List.filterMap_cons, h]
      exact ih v
    | some d =>
      simp only [List.filterMap_cons, h, List.mem_cons]
      have hi := ih { scheduled := v.scheduled + 1, avg := wrapInt64 (v.avg + d),
                      m := if d > v.m then d else v.m }
      have hm : v.m ≤ (if d > v.m then d else v.m) ∧ d ≤ (if d > v.m then d else v.m) := by
        by_cases hd : d > v.m
        · rw [if_pos hd]; exact ⟨le_of_lt hd, le_refl d⟩
        · rw [if_neg hd]; exact ⟨le_refl _, not_lt.mp hd⟩
      refine ⟨le_trans hm.1 hi.1, ?_⟩
      intro e he
      rcases he with rfl | he
      · exact le_trans hm.2 hi.1
      · exact hi.2 e he

/-- The maximum after the loop is its initial value or one of the scheduling
durations. -/
theorem podLoop_m_mem (GetPodCondition : PodStatus → String → Option PodCondition)
    (pods : List Pod) (v : Vars) :
    (podLoop GetPodCondition pods v).m = v.m ∨
      (podLoop GetPodCondition pods v).m ∈ scheduleTimes GetPodCondition pods := by
  induction pods generalizing v with
  | nil => simp [podLoop]
  | cons pod rest ih =>
    simp only [podLoop, podStep_eq, scheduleTimes]
    cases h : scheduleTime GetPodCondition pod with
    | none =>
      simp only [List.filterMap_cons, h]
      exact ih v
    | some d =>
      simp only [List.filterMap_cons, h, List.mem_cons]
      rcases ih { scheduled := v.scheduled + 1, avg := wrapInt64 (v.avg + d),
                  m := if d > v.m then d else v.m } with hi | hi
      · rw [hi]
        show (if d > v.m then d else v.m) = v.m ∨ (if d > v.m then d else v.m) = d ∨ _
        split
        · exact Or.inr (Or.inl rfl)
        · exact Or.inl rfl
      · exact Or.inr (Or.inr hi)

/-- The aggregation of a tick always yields a summary: the division is only
reached with a positive divisor, the number of pods. -/
theorem aggregate_eq (GetPodCondition : PodStatus → String → Option PodCondition)
    (pods : List Pod) :
    aggregate GetPodCondition pods =
      .ok { All := pods.length,
            Scheduled := (podLoop GetPodCondition pods ⟨0, 0, 0⟩).scheduled,
            Unscheduled := pods.length - (podLoop GetPodCondition pods ⟨0, 0, 0⟩).scheduled,
            Max := (podLoop GetPodCondition pods ⟨0, 0, 0⟩).m,
            Avg := if pods = [] then 0
                   else wrapInt64 (Int.tdiv (podLoop GetPodCondition pods ⟨0, 0, 0⟩).avg
                          pods.length) } := by
  cases pods with
  | nil => simp [aggregate, podLoop]
  | cons pod rest =>
    have hpos : (0 : Int) < ((pod :: rest).length : Int) := by
      simp only [List.length_cons]; omega
    have hne : ((pod :: rest).length : Int) ≠ 0 := by omega
    simp only [aggregate, quo, gt_iff_lt, hpos, hne, if_true, if_false]
    simp

end schedtest

namespace schedtest

/-- There are as many scheduling durations as scheduled pods. -/
theorem length_scheduleTimes (GetPodCondition : PodStatus → String → Option PodCondition)
    (pods : List Pod) :
    (scheduleTimes GetPodCondition pods).length =
      (pods.filter (isScheduled GetPodCondition)).length := by
  induction pods with
  | nil => rfl
  | cons pod rest ih =>
    have hs := isSome_scheduleTime GetPodCondition pod
    unfold scheduleTimes at ih ⊢
    cases h : scheduleTime GetPodCondition pod with
    | none =>
      rw [h] at hs
      simp [List.filterMap_cons, h, List.filter_cons, ← hs, ih]
    | some d =>
      rw [h] at hs
      simp [List.filterMap_cons, h, List.filter_cons, ← hs, ih]

/-- A scheduling duration of the snapshot is the duration of one of its pods,
and conversely. -/
theorem mem_scheduleTimes (GetPodCondition : PodStatus → String → Option PodCondition)
    (pods : List Pod) (d : Duration) :
    d ∈ scheduleTimes GetPodCondition pods ↔
      ∃ pod ∈ pods, scheduleTime GetPodCondition pod = some d := by
  simp [scheduleTimes, List.mem_filterMap]

/-- What the code reports as the average: the wrapped sum of the scheduling
durations of the scheduled pods, divided by the number of all pods of the
snapshot, truncating toward zero; zero for the empty snapshot. -/
theorem aggregate_avg (GetPodCondition : PodStatus → String → Option PodCondition)
    (pods : List Pod) :
    ∃ s, aggregate GetPodCondition pods = .ok s ∧
      s.Avg = if pods = [] then 0
              else wrapInt64 (Int.tdiv (wrapInt64 (scheduleTimes GetPodCondition pods).sum)
                     pods.length) := by
  refine ⟨_, aggregate_eq GetPodCondition pods, ?_⟩
  simp only
  rw [podLoop_avg GetPodCondition pods ⟨0, 0, 0⟩ (by decide)]
  simp

/-- The validator loop fails exactly when an argument still to be visited is
a non-empty string. -/
theorem sampler_argsLoop_eq (commandPath : String) (args rest : List String) :
    argsLoop commandPath args rest =
      if ∃ arg ∈ rest, arg ≠ "" then .error (commandPath, args) else .ok () := by
  induction rest with
  | nil => simp [argsLoop]
  | cons arg rest ih =>
    by_cases h : arg = ""
    · subst h; simp [argsLoop, ih]
    · have := (length_pos_iff_ne_empty arg).mpr h
      simp [argsLoop, h, this]

/-- Cancellations alone never end the loop. -/
theorem Start_replicate_cancel (GetPodCondition : PodStatus → String → Option PodCondition)
    (n : Nat) :
    Start GetPodCondition (List.replicate n .cancel) = (.running, []) := by
  unfold Start
  induction n with
  | zero => rfl
  | succ k ih => simp [List.replicate_succ, loop, step, iteration, ih]

/-- C3 (the code at the failing input): for the snapshot of one pod scheduled
after 10 s and one unscheduled pod, the only scheduling duration is 10 s, so
the mean among the scheduled pods is 10 s, yet the average reported is 5 s:
the sum is divided by the number of all pods, not of the scheduled ones. -/
theorem sampler_average_divides_by_all_pods :
    scheduleTimes util.GetPodCondition [podBound, podPending] = [10000000000] ∧
      ([podBound, podPending].filter (isScheduled util.GetPodCondition)).length = 1 ∧
      aggregate util.GetPodCondition [podBound, podPending] =
        .ok { All := 2, Scheduled := 1, Unscheduled := 1, Max := 10000000000,
              Avg := 5000000000 } :=
  ⟨by decide, by decide, rfl⟩

/-- C4 (counterexample): for the snapshot holding only the unscheduled example
pod the reported maximum is 0, and it is the duration of no scheduled pod,
there being none. -/
theorem sampler_max_of_no_scheduled_pod :
    ∃ s, aggregate util.GetPodCondition [podPending] = .ok s ∧ s.Max = 0 ∧
      ¬ ∃ pod ∈ [podPending], scheduleTime util.GetPodCondition pod = some s.Max :=
  ⟨{ All := 1, Scheduled := 0, Unscheduled := 1, Max := 0, Avg := 0 }, rfl, rfl, by decide⟩

/-- C4 (amended): the reported maximum is at least the duration of every
scheduled pod of the snapshot; it is the duration of one of the scheduled pods
whenever some scheduled pod has a non-negative duration; and it is zero when
no pod of the snapshot is scheduled. -/
theorem sampler_max_bounds_the_scheduled_durations
    (GetPodCondition : PodStatus → String → Option PodCondition) :
    (∀ pods : List Pod, ∃ s, aggregate GetPodCondition pods = .ok s ∧
      (∀ pod ∈ pods, ∀ d, scheduleTime GetPodCondition pod = some d → d ≤ s.Max) ∧
      ((∃ pod ∈ pods, ∃ d, scheduleTime GetPodCondition pod = some d ∧ 0 ≤ d) →
        ∃ pod ∈ pods, scheduleTime GetPodCondition pod = some s.Max)) ∧
    (∀ pods : List Pod, (∀ pod ∈ pods, scheduleTime GetPodCondition pod = none) →
      ∃ s, aggregate GetPodCondition pods = .ok s ∧ s.Max = 0) := by
  constructor
  · intro pods
    refine ⟨_, aggregate_eq GetPodCondition pods, ?_, ?_⟩
    · intro pod hpod d hd
      exact (podLoop_m_ge GetPodCondition pods ⟨0, 0, 0⟩).2 d
        ((mem_scheduleTimes GetPodCondition pods d).mpr ⟨pod, hpod, hd⟩)
    · rintro ⟨pod, hpod, d, hd, hnonneg⟩
      have hmem := (mem_scheduleTimes GetPodCondition pods d).mpr ⟨pod, hpod, hd⟩
      rcases podLoop_m_mem GetPodCondition pods ⟨0, 0, 0⟩ with h0 | hin
      · have hle := (podLoop_m_ge GetPodCondition pods ⟨0, 0, 0⟩).2 d hmem
        have hd0 : d = (podLoop GetPodCondition pods ⟨0, 0, 0⟩).m := by
          rw [h0] at hle ⊢
          exact le_antisymm hle hnonneg
        exact ⟨pod, hpod, by rw [← hd0]; exact hd⟩
      · exact (mem_scheduleTimes GetPodCondition pods _).mp hin
  · intro pods hnone
    refine ⟨_, aggregate_eq GetPodCondition pods, ?_⟩
    rcases podLoop_m_mem GetPodCondition pods ⟨0, 0, 0⟩ with h0 | hin
    · exact h0
    · obtain ⟨pod, hpod, hd⟩ := (mem_scheduleTimes GetPodCondition pods _).mp hin
      rw [hnone pod hpod] at hd
      cases hd

/-- C4 (amended) on the example pods: with the scheduled pod in the snapshot
the maximum is its duration, 10 s; without it the maximum is 0. -/
theorem sampler_max_bounds_the_scheduled_durations_witness :
    (∃ pod ∈ [podBound, podPending], ∃ d,
        scheduleTime util.GetPodCondition pod = some d ∧ 0 ≤ d) ∧
      (∃ s, aggregate util.GetPodCondition [podBound, podPending] = .ok s ∧
        (∀ pod ∈ [podBound, podPending], ∀ d,
          scheduleTime util.GetPodCondition pod = some d → d ≤ s.Max) ∧
        ∃ pod ∈ [podBound, podPending], scheduleTime util.GetPodCondition pod = some s.Max) ∧
      (∀ pod ∈ [podPending], scheduleTime util.GetPodCondition pod = none) ∧
      (∃ s, aggregate util.GetPodCondition [podPending] = .ok s ∧ s.Max = 0) := by
  have hex : ∃ pod ∈ [podBound, podPending], ∃ d,
      scheduleTime util.GetPodCondition pod = some d ∧ 0 ≤ d :=
    ⟨podBound, by simp, 10000000000, by decide, by decide⟩
  have hnone : ∀ pod ∈ [podPending], scheduleTime util.GetPodCondition pod = none := by
    decide
  obtain ⟨s, hs, hle, hmax⟩ :=
    (sampler_max_bounds_the_scheduled_durations util.GetPodCondition).1 [podBound, podPending]
  exact ⟨hex, ⟨s, hs, hle, hmax hex⟩, hnone,
    (sampler_max_bounds_the_scheduled_durations util.GetPodCondition).2 [podPending] hnone⟩

end schedtest

namespace schedtest

/-- C5 (the code at the failing input): when the loop is running and the
cancellation is the event handled, no summary is logged, but control is back
at the top of the loop, still running: `Start` has not returned. Any number
of cancellations leaves it running, and a tick after a cancellation is still
sampled and logged. -/
theorem sampler_cancellation_leaves_the_loop_running
    (GetPodCondition : PodStatus → String → Option PodCondition) :
    step GetPodCondition .running .cancel = (.running, []) ∧
    (∀ n : Nat, Start GetPodCondition (List.replicate n .cancel) = (.running, [])) ∧
    Start GetPodCondition [.cancel, .tick (.ok [])] =
      (.running, [{ All := 0, Scheduled := 0, Unscheduled := 0, Max := 0, Avg := 0 }]) :=
  ⟨rfl, Start_replicate_cancel GetPodCondition, rfl⟩

/-- C7: in the summary of every snapshot the total is the number of pods, the
scheduled count is the number of pods whose PodScheduled condition has status
True, scheduled plus unscheduled is the total, and the unscheduled count is
not negative. -/
theorem sampler_counts_add_up (GetPodCondition : PodStatus → String → Option PodCondition)
    (pods : List Pod) :
    ∃ s, aggregate GetPodCondition pods = .ok s ∧
      s.All = pods.length ∧
      s.Scheduled = (pods.filter (isScheduled GetPodCondition)).length ∧
      s.Scheduled + s.Unscheduled = s.All ∧
      0 ≤ s.Unscheduled := by
  refine ⟨_, aggregate_eq GetPodCondition pods, rfl, ?_, ?_, ?_⟩
  · simp only [podLoop_scheduled, length_scheduleTimes]
    omega
  · simp only
    omega
  · simp only [podLoop_scheduled, length_scheduleTimes]
    have := List.length_filter_le (isScheduled GetPodCondition) pods
    omega

/-- C8: the aggregation of every snapshot yields a summary, so no tick ends
in a division by zero, and the average reported for the snapshot with zero
pods is zero. -/
theorem sampler_average_never_divides_by_zero
    (GetPodCondition : PodStatus → String → Option PodCondition) :
    (∀ pods : List Pod, ∃ s, aggregate GetPodCondition pods = .ok s) ∧
    (∃ s, aggregate GetPodCondition [] = .ok s ∧ s.Avg = 0) ∧
    (∀ (ev : Event) (panic : String),
      (iteration GetPodCondition ev).1 ≠ .panicked panic) := by
  refine ⟨fun pods => ⟨_, aggregate_eq GetPodCondition pods⟩,
    ⟨_, aggregate_eq GetPodCondition [], rfl⟩, ?_⟩
  intro ev panic
  cases ev with
  | cancel => simp [iteration]
  | tick listing =>
    cases listing with
    | error err => simp [iteration]
    | ok pods => simp [iteration, aggregate_eq]

end schedtest

/-! ## Properties of the argument validators -/

/-- C10 (counterexample): the one-element list holding the empty string is a
non-empty argument list, and both validators accept it. -/
theorem args_accepts_an_empty_string_argument :
    [""] ≠ ([] : List String) ∧
      gpunums.Args "get-running-gpus" [""] = .ok () ∧
      schedtest.Args "schedule-test" [""] = .ok () :=
  ⟨by decide, rfl, rfl⟩

/-- C10 (amended): each validator returns an error iff some positional
argument is a non-empty string, the error naming the command path and the
whole argument list; exactly the lists made of empty strings, the empty list
among them, are accepted. -/
theorem args_rejects_iff_some_argument_is_nonempty (commandPath : String)
    (args : List String) :
    ((∃ e, gpunums.Args commandPath args = .error e) ↔ ∃ arg ∈ args, arg ≠ "") ∧
    ((∃ e, schedtest.Args commandPath args = .error e) ↔ ∃ arg ∈ args, arg ≠ "") ∧
    (gpunums.Args commandPath args = .ok () ↔ ∀ arg ∈ args, arg = "") ∧
    (schedtest.Args commandPath args = .ok () ↔ ∀ arg ∈ args, arg = "") ∧
    (gpunums.Args commandPath args = .ok () ∨
      gpunums.Args commandPath args = .error (commandPath, args)) ∧
    (schedtest.Args commandPath args = .ok () ∨
      schedtest.Args commandPath args = .error (commandPath, args)) ∧
    gpunums.Args commandPath [] = .ok () ∧ schedtest.Args commandPath [] = .ok () := by
  have hg : gpunums.Args commandPath args =
      if ∃ arg ∈ args, arg ≠ "" then .error (commandPath, args) else .ok () :=
    gpunums.argsLoop_eq commandPath args args
  have hs : schedtest.Args commandPath args =
      if ∃ arg ∈ args, arg ≠ "" then .error (commandPath, args) else .ok () :=
    schedtest.sampler_argsLoop_eq commandPath args args
  have hall : (∀ arg ∈ args, arg = "") ↔ ¬ ∃ arg ∈ args, arg ≠ "" := by
    constructor
    · rintro hall ⟨a, ha, hne⟩
      exact hne (hall a ha)
    · intro hno a ha
      by_contra hne
      exact hno ⟨a, ha, hne⟩
  rw [hg, hs, hall]
  refine ⟨?_, ?_, ?_, ?_, ?_, ?_, rfl, rfl⟩ <;> by_cases h : ∃ arg ∈ args, arg ≠ ""
  all_goals first
    | (rw [if_pos h]; simp [h])
    | (rw [if_neg h]; simp [h])
